import Mathlib

/-
Verification development for the ceremony data clock consensus engine
(src/node/app/node.go).  The Go handlers are embedded shallowly:

* byte strings become `List Nat`; unsigned 64-bit arithmetic is `Nat`
  with explicit `% 2 ^ 64` where the Go code can wrap;
* the external curve / FFT / store / pub-sub collaborators (which the
  repository treats as oracles) are fields of an environment record, so
  every theorem is universally quantified over their behaviour;
* fallible Go calls return `Except`; a Go runtime panic (such as an
  index-out-of-range) is modelled by the distinguished `RunErr.panic`
  constructor, kept apart from returned errors;
* engine state mutated by a handler is threaded explicitly and returned
  next to the handler's result value.
-/

namespace Quil

set_option maxRecDepth 16384

/-- Byte strings (`[]byte` in the source). -/
abbrev Bytes : Type := List Nat

/-- Scalars, curve points and polynomials are opaque to the engine; the
oracle functions in the environment produce and consume them, so plain
`Nat` / `List Nat` suffice. -/
abbrev Poly : Type := List Nat

/-- Errors observable from a handler.  `err` models a returned Go error
value (the string carries the `errors.Wrap` context); `panic` models a Go
runtime panic, which is not a returned error. -/
inductive RunErr where
  | err (msg : String)
  | panic (msg : String)
deriving DecidableEq

/-- Models `errors.Wrap(e, ctx)` for returned errors. -/
def wrapErr (ctx msg : String) : RunErr := RunErr.err (ctx ++ ": " ++ msg)

/-- One inclusion commitment of an aggregate proof
(`(type_url, data, commitment)`). -/
structure InclusionCommitment where
  typeUrl : String
  data : Bytes
  commitment : Bytes
deriving DecidableEq

/-- One aggregate proof of a clock frame. -/
structure AggregateProof where
  inclusionCommitments : List InclusionCommitment
  proof : Bytes
deriving DecidableEq

/-- A clock frame (the fields of `protobufs.ClockFrame` the handlers
read). -/
structure ClockFrame where
  filter : Bytes
  frameNumber : Nat
  parentSelector : Bytes
  input : Bytes
  aggregateProofs : List AggregateProof
deriving DecidableEq

/-- The decoded `protobufs.ClockFramesResponse`. -/
structure ClockFramesResponse where
  filter : Bytes
  fromFrameNumber : Nat
  toFrameNumber : Nat
  clockFrames : List ClockFrame
deriving DecidableEq

/-- The decoded `protobufs.ClockFramesRequest`. -/
structure ClockFramesRequest where
  filter : Bytes
  fromFrameNumber : Nat
  toFrameNumber : Nat
deriving DecidableEq

/-- The symbolic `protobufs.IntrinsicExecutionOutputType` type url. -/
def IntrinsicExecutionOutputType : String :=
  "quilibrium.node.ceremony.pb.IntrinsicExecutionOutput"

/-- The value stored for one prover key in the prover trie. -/
structure TrieVal where
  earliest : Nat
  latest : Nat
  count : Nat
deriving DecidableEq

/-- Modelled from the spec: the prover trie implementation
(`tries.RollingFrecencyCritbitTrie`) is not under `src/`; only its
callers are.  Spec section 4.5 gives its semantics: a mapping
`ProverId -> (earliest_frame, latest_frame, count)` with `count == 0` on
absence, and `add` taking `earliest := min`, `latest := max`,
`count += 1`.  Iteration order is not exposed to callers, so an
association list is a faithful model. -/
abbrev Trie : Type := List (Bytes × TrieVal)

/-- Lookup `trie.Get(key)` returning `(earliestFrame, latestFrame, count)`;
`(0, 0, 0)` when the key is absent. -/
def Trie.get (t : Trie) (k : Bytes) : Nat × Nat × Nat :=
  match t.find? (fun e => decide (e.1 = k)) with
  | some e => (e.2.earliest, e.2.latest, e.2.count)
  | none => (0, 0, 0)

/-- Update `trie.Add(key, frameNumber)` (spec section 4.5). -/
def Trie.add (t : Trie) (k : Bytes) (fn : Nat) : Trie :=
  match t.find? (fun e => decide (e.1 = k)) with
  | some _ =>
    t.map (fun e =>
      if e.1 = k then (e.1, ⟨min e.2.earliest fn, max e.2.latest fn, e.2.count + 1⟩) else e)
  | none => t ++ [(k, ⟨fn, fn, 1⟩)]

/-- Sync status of the engine. -/
inductive SyncStatus where
  | notSyncing
  | awaitingResponse
  | synchronizing
deriving DecidableEq

/-- A candidate clock frame row as persisted by
`PutCandidateDataClockFrame(parentSelector, distance, selector, frame)`. -/
structure Candidate where
  parentSelector : Bytes
  distance : Bytes
  selector : Bytes
  frame : ClockFrame
deriving DecidableEq

/-- Environment of `handleClockFramesResponse`: the external
collaborators (frame methods, curve and FFT oracle, key and clock store
effects, clock).  Store failures are injected per frame, modelling that
the physical store may fail on any particular write. -/
structure RespEnv where
  selfId : Bytes
  syncingTarget : Bytes
  now : Nat
  getAddress : ClockFrame → Except String Bytes
  verifyDataClockFrame : ClockFrame → Except String Unit
  bytesToPolynomial : Bytes → Except String Poly
  shake256 : Bytes → Nat → Bytes
  fft : Poly → Nat → Bool → Except String Poly
  zeroScalar : Nat
  fromAffineCompressed : Bytes → Except String Nat
  verifyAggregateProof : List Poly → List Nat → Nat → Nat → Except String Bool
  getParentSelectorAndDistance : ClockFrame → Except String (Bytes × Bytes × Bytes)
  newTxnErr : ClockFrame → Option String
  putErr : ClockFrame → Option String
  commitErr : ClockFrame → Option String

/-- Engine state read or written by `handleClockFramesResponse`. -/
structure RespState where
  syncingStatus : SyncStatus
  frameProverTrie : Trie
  frameSeenProverTrie : Trie
  candidates : List Candidate
  frame : Nat
  latestFrameReceived : Nat
  lastFrameReceivedAt : Nat
deriving DecidableEq

/-- The 74-byte slice `input[516+74*i : 516+74*(i+1)]`. -/
def sliceAt (input : Bytes) (i : Nat) : Bytes :=
  (input.drop (516 + i * 74)).take 74

/-- The aggregate-commitment parse loop
(`for i := 0; i < (len(frame.Input)-516)/74; i++`), decoding each
74-byte slice as a compressed G1 point; the first decode failure aborts.
`i` is the next index, `k` the number of slices still to decode. -/
def parseCommits (env : RespEnv) (input : Bytes) (i : Nat) :
    (k : Nat) → Except RunErr (List Nat)
  | 0 => Except.ok []
  | k + 1 =>
    match env.fromAffineCompressed (sliceAt input i) with
    | Except.error e => Except.error (wrapErr "handle clock frame response" e)
    | Except.ok c =>
      match parseCommits env input (i + 1) k with
      | Except.error e => Except.error e
      | Except.ok rest => Except.ok (c :: rest)

/-- The zero-padding loop of the default (non-intrinsic) inclusion
branch, exactly as written in the source:
`for i := 0; i < 128-len(poly); i++ { poly = append(poly, zero) }`.
Go re-evaluates `128-len(poly)` at every iteration while `poly` grows,
so the loop stops as soon as `i >= 128 - len(poly)`.  The condition
forces `i < 128`, hence 128 units of fuel are never exhausted. -/
def padZeros (z : Nat) : Nat → Nat → Poly → Poly
  | 0, _, p => p
  | fuel + 1, i, p => if i < 128 - p.length then padZeros z fuel (i + 1) (p ++ [z]) else p

/-- The padding loop entered at `i = 0`. -/
def padPoly (z : Nat) (p : Poly) : Poly := padZeros z 128 0 p

/-- Processing of one inclusion commitment inside the per-proof loop:
the `switch commit.TypeUrl` statement.  Returns the evaluation
polynomial appended to `aggregatePoly` and the decoded commitment point
appended to `commitments`. -/
def processInclusion (env : RespEnv) (c : InclusionCommitment) :
    Except RunErr (Poly × Nat) :=
  if c.typeUrl = IntrinsicExecutionOutputType then
    let expand := env.shake256 c.data 1024
    match env.bytesToPolynomial expand with
    | Except.error e => Except.error (wrapErr "handle clock frame response" e)
    | Except.ok poly =>
      match env.fft poly 16 false with
      | Except.error e => Except.error (wrapErr "handle clock frame response" e)
      | Except.ok evalPoly =>
        match env.fromAffineCompressed c.commitment with
        | Except.error e => Except.error (wrapErr "handle clock frame data" e)
        | Except.ok pt => Except.ok (evalPoly, pt)
  else
    match env.bytesToPolynomial c.data with
    | Except.error e => Except.error (wrapErr "handle clock frame response" e)
    | Except.ok poly0 =>
      let poly := padPoly env.zeroScalar poly0
      match env.fft poly 128 false with
      | Except.error e => Except.error (wrapErr "handle clock frame response" e)
      | Except.ok evalPoly =>
        match env.fromAffineCompressed c.commitment with
        | Except.error e => Except.error (wrapErr "handle clock frame response" e)
        | Except.ok pt => Except.ok (evalPoly, pt)

/-- The loop over `proof.GetInclusionCommitments()`, building
`aggregatePoly` and `commitments` in order; the first failure aborts. -/
def processInclusions (env : RespEnv) :
    List InclusionCommitment → Except RunErr (List Poly × List Nat)
  | [] => Except.ok ([], [])
  | c :: rest =>
    match processInclusion env c with
    | Except.error e => Except.error e
    | Except.ok (ep, pt) =>
      match processInclusions env rest with
      | Except.error e => Except.error e
      | Except.ok (ps, pts) => Except.ok (ep :: ps, pt :: pts)

/-- The loop `for i, proof := range frame.AggregateProofs`.  The source
indexes `aggregateCommitments[i]` with no bound check; when
`i >= len(aggregateCommitments)` Go panics with an index-out-of-range
runtime error, modelled by `RunErr.panic`. -/
def processProofs (env : RespEnv) (aggregateCommitments : List Nat) (i : Nat) :
    List AggregateProof → Except RunErr Unit
  | [] => Except.ok ()
  | pr :: rest =>
    match processInclusions env pr.inclusionCommitments with
    | Except.error e => Except.error e
    | Except.ok (aggregatePoly, commitments) =>
      match env.fromAffineCompressed pr.proof with
      | Except.error e => Except.error (wrapErr "handle clock frame response" e)
      | Except.ok p =>
        match aggregateCommitments.get? i with
        | none => Except.error (RunErr.panic "runtime error: index out of range")
        | some ac =>
          match env.verifyAggregateProof aggregatePoly commitments ac p with
          | Except.error e => Except.error (wrapErr "handle clock frame response" e)
          | Except.ok false =>
            Except.error (wrapErr "handle clock frame response" "invalid proof")
          | Except.ok true => processProofs env aggregateCommitments (i + 1) rest

/-- All fallible steps of one iteration of the
`for _, frame := range response.ClockFrames` loop, in source order:
`GetAddress`, the trie-membership gate against the snapshot trie `tc`,
`VerifyDataClockFrame`, the aggregate-commitment parse, the per-proof
verification, `GetParentSelectorAndDistance` (returning
`(parentSelector, selector, distance)` as in the source), and the
transaction open / put / commit.  On success it yields the data the
frame's state effects need. -/
def processFrameCore (env : RespEnv) (tc : Trie) (frame : ClockFrame) :
    Except RunErr (Bytes × Bytes × Bytes × Bytes) :=
  match env.getAddress frame with
  | Except.error e => Except.error (wrapErr "handle clock frames response" e)
  | Except.ok prover =>
    if (tc.get prover).2.2 = 0 ∨ (tc.get prover).1 ≥ frame.frameNumber then
      Except.error (wrapErr "handle clock frame response" "prover not in trie")
    else
      match env.verifyDataClockFrame frame with
      | Except.error e => Except.error (wrapErr "handle clock frame response" e)
      | Except.ok _ =>
        match parseCommits env frame.input 0 ((frame.input.length - 516) / 74) with
        | Except.error e => Except.error e
        | Except.ok aggregateCommitments =>
          match processProofs env aggregateCommitments 0 frame.aggregateProofs with
          | Except.error e => Except.error e
          | Except.ok _ =>
            match env.getParentSelectorAndDistance frame with
            | Except.error e => Except.error (wrapErr "handle clock frame data" e)
            | Except.ok (parentSel, selector, distance) =>
              match env.newTxnErr frame with
              | some e => Except.error (wrapErr "handle clock frame response" e)
              | none =>
                match env.putErr frame with
                | some e => Except.error (wrapErr "handle clock frame response" e)
                | none =>
                  match env.commitErr frame with
                  | some e => Except.error (wrapErr "handle clock frame response" e)
                  | none => Except.ok (prover, parentSel, selector, distance)

/-- The state effects of one accepted frame, in source order: the
committed candidate row, the `latestFrameReceived` /
`lastFrameReceivedAt` update when `e.frame < frame.FrameNumber`, and the
`frameSeenProverTrie.Add`. -/
def applyFrameEffects (env : RespEnv) (st : RespState) (frame : ClockFrame)
    (prover parentSel selector distance : Bytes) : RespState :=
  let st1 :=
    {st with candidates := st.candidates ++ [Candidate.mk parentSel distance selector frame]}
  let st2 :=
    if st1.frame < frame.frameNumber then
      {st1 with latestFrameReceived := frame.frameNumber, lastFrameReceivedAt := env.now}
    else st1
  {st2 with frameSeenProverTrie := st2.frameSeenProverTrie.add prover frame.frameNumber}

/-- One iteration of the response loop: on any failure the iteration
leaves both the snapshot trie and the engine state untouched (every
mutation in the source happens after the last fallible call); on success
it commits the candidate row, updates the received-frame bookkeeping and
adds `(prover, frameNumber)` to both tries. -/
def processFrame (env : RespEnv) (tc : Trie) (st : RespState) (frame : ClockFrame) :
    Option RunErr × Trie × RespState :=
  match processFrameCore env tc frame with
  | Except.error e => (some e, tc, st)
  | Except.ok (prover, parentSel, selector, distance) =>
    (none, tc.add prover frame.frameNumber,
      applyFrameEffects env st frame prover parentSel selector distance)

/-- The `for _, frame := range response.ClockFrames` loop: frames are
processed strictly in array order and the first failure aborts the
batch, returning that error together with the state reached so far. -/
def processBatch (env : RespEnv) :
    Trie → RespState → List ClockFrame → Option RunErr × Trie × RespState
  | tc, st, [] => (none, tc, st)
  | tc, st, f :: rest =>
    match processFrame env tc st f with
    | (some e, tc2, st2) => (some e, tc2, st2)
    | (none, tc2, st2) => processBatch env tc2 st2 rest

/-- Handler `handleClockFramesResponse`.  The self and off-target guards return
nil before the status is touched.  On the processing path the status is
set to `Synchronizing` and the deferred reset restores `NotSyncing` on
every exit (Go runs deferred calls during panics too).  The snapshot of
`frameProverTrie` is the serialize / deserialize round trip of the
source; spec invariant 4 makes that round trip the identity, so the
snapshot is the trie value itself.  (The protobuf decode of the response
and the serialize error path, both of which only produce early wrapped
errors, are not modelled; no claim concerns them.) -/
def handleClockFramesResponse (env : RespEnv) (st : RespState) (peerId : Bytes)
    (response : ClockFramesResponse) : Option RunErr × RespState :=
  if peerId = env.selfId then (none, st)
  else if peerId = env.syncingTarget then
    let stSync := {st with syncingStatus := SyncStatus.synchronizing}
    match processBatch env stSync.frameProverTrie stSync response.clockFrames with
    | (r, _, stF) => (r, {stF with syncingStatus := SyncStatus.notSyncing})
  else (none, st)

/-! ## The proving-key request handler -/

/-- Store lookup errors distinguish the sentinel `store.ErrNotFound`. -/
inductive StoreErr where
  | notFound
  | other (msg : String)
deriving DecidableEq

/-- The decoded `protobufs.ProvingKeyRequest`. -/
structure ProvingKeyRequest where
  provingKeyBytes : Bytes
deriving DecidableEq

/-- Environment of `handleProvingKeyRequest`: the key store
collaborators.  `getProvingKey` yields the inclusion commitment data,
`getStagedProvingKey` the staged announcement.  (The `publishMessage`
call of the source needs no field: the only path that reaches it panics
first, see `handleProvingKeyRequest`.) -/
structure PKEnv where
  selfId : Bytes
  getProvingKey : Bytes → Except StoreErr Bytes
  getStagedProvingKey : Bytes → Except StoreErr Nat

/-- Handler `handleProvingKeyRequest`.  Here `request = none` models a failing
`any.UnmarshalTo(request)` (the source returns nil on it).  Every
guard and error branch of the source ends in `return nil`, including
the staged-key branch, whose `if !errors.Is(err, store.ErrNotFound)`
also swallows a successful staged lookup.  On the
`GetProvingKey`-success path, however, the source calls
`proto.Unmarshal(inclusion.Data, provingKey)` with `provingKey` still a
typed-nil `*ProvingKeyAnnouncement` — it is only ever assigned in the
staged branch, all of whose exits return earlier — and unmarshalling
resets the destination through that nil pointer: a guaranteed
nil-pointer-dereference runtime panic, modelled as `RunErr.panic` (the
spec flags this latent nil dereference in open question 1).  The
subsequent `publishMessage` call is therefore unreachable. -/
def handleProvingKeyRequest (env : PKEnv) (peerId : Bytes)
    (request : Option ProvingKeyRequest) : Option RunErr :=
  if peerId = env.selfId then none
  else
    match request with
    | none => none
    | some request =>
      if request.provingKeyBytes = [] then none
      else
        match env.getProvingKey request.provingKeyBytes with
        | Except.error e =>
          if e ≠ StoreErr.notFound then none
          else
            match env.getStagedProvingKey request.provingKeyBytes with
            | Except.error StoreErr.notFound => none
            | Except.error (StoreErr.other _) => none
            | Except.ok _ => none
        | Except.ok _ =>
          some (RunErr.panic
            "runtime error: invalid memory address or nil pointer dereference")

/-! ## The range server (`handleClockFramesRequest`) -/

/-- The modulus `2 ^ 64`; uint64 arithmetic is `Nat` reduced by it. -/
def U64 : Nat := 2 ^ 64

/-- Unsigned 64-bit subtraction `a - b` with wrap-around. -/
def subU64 (a b : Nat) : Nat := (a + U64 - b % U64) % U64

/-- The clamp of the requested upper bound:
`if to == 0 || to-from > 32 { to = from + 31 }`, in uint64 arithmetic. -/
def clampTo (fro t : Nat) : Nat :=
  if t = 0 ∨ subU64 t fro > 32 then (fro + 31) % U64 else t

/-- The clock store visible to the range server. `finalized` is keyed by
`(filter, frameNumber)`.  `candidates` rows carry `(filter,
parentSelector, frame)`; the list is kept in ascending candidate-key
(distance) order, which is the order the store iterator yields. -/
structure Store where
  finalized : List (Bytes × Nat × ClockFrame)
  candidates : List (Bytes × Bytes × ClockFrame)
deriving DecidableEq

/-- Lookup `GetDataClockFrame(filter, n)`; `none` is `store.ErrNotFound`.
(Store failures other than not-found only produce early wrapped error
returns in the source and are not modelled.) -/
def Store.getFinalized (s : Store) (filt : Bytes) (n : Nat) : Option ClockFrame :=
  match s.finalized.find? (fun e => decide (e.1 = filt) && decide (e.2.1 = n)) with
  | some e => some e.2.2
  | none => none

/-- Iterator `RangeCandidateDataClockFrames(filter, parentSelector, n)`: the
candidate frames under `parentSelector` at height `n`, in store
iteration order. -/
def Store.rangeCandidates (s : Store) (filt parentSel : Bytes) (n : Nat) :
    List ClockFrame :=
  (s.candidates.filter (fun e =>
    decide (e.1 = filt) && decide (e.2.1 = parentSel) &&
      decide (e.2.2.frameNumber = n))).map (fun e => e.2.2)

/-- A message published on the per-peer topic: a finalized frame, a
candidate frame, or the empty `ClockFramesResponse` of the undiscovered
branch. -/
inductive PubMsg where
  | frameFin (f : ClockFrame)
  | frameCand (f : ClockFrame)
  | emptyResponse (filt : Bytes)
deriving DecidableEq

/-- Observable effects of a range-request run: the successfully
published messages with their topic, the number of publish attempts, and
one `Bool` per candidate iterator the handler opened (`true` iff
`Close()` was called on it). -/
structure RSState where
  published : List (Bytes × PubMsg)
  pubCount : Nat
  iters : List Bool
deriving DecidableEq

/-- The state at handler entry. -/
def rsInit : RSState := RSState.mk [] 0 []

/-- Environment of the range server.  `publishErr n` injects a failure
into the `n`-th publish attempt; `valueErr` injects an `iter.Value()`
failure. -/
structure RangeEnv where
  selfId : Bytes
  engineFilter : Bytes
  store : Store
  getSelector : ClockFrame → Except String Bytes
  publishErr : Nat → Option String
  valueErr : ClockFrame → Option String

/-- Publish `e.publishMessage(topic, m)`: counts the attempt and records the
message when it succeeds. -/
def doPublish (env : RangeEnv) (topic : Bytes) (m : PubMsg) (st : RSState) :
    Option String × RSState :=
  match env.publishErr st.pubCount with
  | some e => (some e, {st with pubCount := st.pubCount + 1})
  | none =>
    (none,
      {st with pubCount := st.pubCount + 1, published := st.published ++ [(topic, m)]})

/-- Marks the most recently opened iterator closed. -/
def setLastClosed (l : List Bool) : List Bool := l.dropLast ++ [true]

/-- The candidate iteration
`for iter.First(); iter.Valid(); iter.Next()`: on a `Value()` error or a
publish error the source returns at once — without `iter.Close()` — so
those exits leave the iterator flag untouched; only falling off the loop
reaches `iter.Close()`.  Returns the error, the frames appended to
`nextSpan`, and the updated effects. -/
def iterLoop (env : RangeEnv) (topic : Bytes) :
    List ClockFrame → List ClockFrame → RSState →
      Option String × List ClockFrame × RSState
  | [], acc, st => (none, acc, {st with iters := setLastClosed st.iters})
  | f :: rest, acc, st =>
    match env.valueErr f with
    | some e => (some ("handle clock frame request" ++ ": " ++ e), acc, st)
    | none =>
      match doPublish env topic (PubMsg.frameCand f) st with
      | (some e, st2) => (some ("handle clock frame request" ++ ": " ++ e), acc, st2)
      | (none, st2) => iterLoop env topic rest (acc ++ [f]) st2

/-- The body of `for _, s := range searchSpan`: per element, compute the
selector; while finalization has not run out, fetch the finalized frame
at `s.FrameNumber+1` (not-found flips `noMoreFinalized`, which is then
observed by the candidate branch of the same iteration); once
finalization has run out, open the candidate iterator at
`(s.Filter, selector, s.FrameNumber+1)` and fan out.  Returns the first
error, the final `noMoreFinalized`, the accumulated `nextSpan` and the
effects.  (The dead `set` accumulator of the source is not modelled,
and the never-published base frame stays unpublished exactly as in the
source.) -/
def processSpan (env : RangeEnv) (topic : Bytes) :
    List ClockFrame → Bool → List ClockFrame → RSState →
      Option String × Bool × List ClockFrame × RSState
  | [], noMore, nextSpan, st => (none, noMore, nextSpan, st)
  | s :: rest, noMore, nextSpan, st =>
    match env.getSelector s with
    | Except.error e =>
      (some ("handle clock frame request" ++ ": " ++ e), noMore, nextSpan, st)
    | Except.ok selector =>
      match noMore with
      | true =>
        let cands := env.store.rangeCandidates s.filter selector ((s.frameNumber + 1) % U64)
        let stO := {st with iters := st.iters ++ [false]}
        match iterLoop env topic cands [] stO with
        | (some e, _, stA) => (some e, true, nextSpan, stA)
        | (none, adds, stA) => processSpan env topic rest true (nextSpan ++ adds) stA
      | false =>
        match env.store.getFinalized s.filter ((s.frameNumber + 1) % U64) with
        | none =>
          let cands := env.store.rangeCandidates s.filter selector ((s.frameNumber + 1) % U64)
          let stO := {st with iters := st.iters ++ [false]}
          match iterLoop env topic cands [] stO with
          | (some e, _, stA) => (some e, true, nextSpan, stA)
          | (none, adds, stA) => processSpan env topic rest true (nextSpan ++ adds) stA
        | some f =>
          match doPublish env topic (PubMsg.frameFin f) st with
          | (some e, st2) =>
            (some ("handle clock frame request" ++ ": " ++ e), false, nextSpan, st2)
          | (none, st2) => processSpan env topic rest false (nextSpan ++ [f]) st2

/-- The outer loop
`for len(searchSpan) != 0 && from+uint64(currentNumber) <= to`.
The Go loop has no intrinsic bound; `fuel` dominates every terminating
run of the analysed scenarios (the loop condition or an error stops them
long before `2 ^ 64` levels) and `none` models a run that exhausts it. -/
def rsLoop (env : RangeEnv) (topic : Bytes) (fro t : Nat) :
    Nat → List ClockFrame → Nat → Bool → RSState →
      Option (Option String × RSState)
  | 0, _, _, _, _ => none
  | fuel + 1, span, current, noMore, st =>
    if span ≠ [] ∧ (fro + current) % U64 ≤ t then
      match processSpan env topic span noMore [] st with
      | (some e, _, _, st2) => some (some e, st2)
      | (none, noMore2, nextSpan, st2) =>
        rsLoop env topic fro t fuel nextSpan (current + 1) noMore2 st2
    else some (none, st)

/-- Handler `handleClockFramesRequest`.  The self guard drops the request; an
unknown base frame publishes the empty response; otherwise the upper
bound is clamped and the span traversal runs from the base.  (The
request decode-failure path and the per-peer `Subscribe` call, which
have no observable effect here, are not modelled.) -/
def handleClockFramesRequest (env : RangeEnv) (peerId : Bytes)
    (request : ClockFramesRequest) : Option (Option String × RSState) :=
  if peerId = env.selfId then some (none, rsInit)
  else
    let topic := env.engineFilter ++ peerId
    match env.store.getFinalized request.filter request.fromFrameNumber with
    | none =>
      match doPublish env topic (PubMsg.emptyResponse request.filter) rsInit with
      | (some e, st) => some (some ("handle clock frame request" ++ ": " ++ e), st)
      | (none, st) => some (none, st)
    | some base =>
      let fro := request.fromFrameNumber
      let t := clampTo fro request.toFrameNumber
      rsLoop env topic fro t U64 [base] 1 false rsInit

/-! ## Derived observation functions -/

/-- The per-topic sequence of finalized-frame publishes at heights
`a, a + 1, ..., a + k - 1`. -/
def finSeq (topic : Bytes) (F : Nat → ClockFrame) (a k : Nat) : List (Bytes × PubMsg) :=
  (List.range k).map (fun i => (topic, PubMsg.frameFin (F (a + i))))

/-- Whether a published message is a finalized frame. -/
def isFinPub (p : Bytes × PubMsg) : Bool :=
  match p.2 with
  | PubMsg.frameFin _ => true
  | _ => false

/-- The number of finalized frames among the published messages. -/
def finPubCount (l : List (Bytes × PubMsg)) : Nat := (l.filter isFinPub).length

/-! ## Concrete fixtures

Small closed instances of the environments, used by the witness and
counterexample theorems.  The oracle functions are simple total
instances (identity polynomial conversion, identity FFT, always-valid
proofs); nothing in the handlers distinguishes them from any other
oracle. -/

/-- A concrete response-side environment. -/
def envR : RespEnv where
  selfId := [0]
  syncingTarget := [1]
  now := 99
  getAddress := fun f => Except.ok [f.frameNumber]
  verifyDataClockFrame := fun _ => Except.ok ()
  bytesToPolynomial := fun b => Except.ok b
  shake256 := fun _ n => List.replicate n 0
  fft := fun p _ _ => Except.ok p
  zeroScalar := 0
  fromAffineCompressed := fun _ => Except.ok 0
  verifyAggregateProof := fun _ _ _ _ => Except.ok true
  getParentSelectorAndDistance := fun f => Except.ok (f.parentSelector, [f.frameNumber], [1])
  newTxnErr := fun _ => none
  putErr := fun _ => none
  commitErr := fun _ => none

/-- A prover trie holding prover `[5]` at earliest frame 2. -/
def trieR : Trie := [([5], ⟨2, 4, 3⟩)]

/-- A concrete engine state whose prover trie is `trieR`. -/
def stR : RespState := ⟨SyncStatus.notSyncing, trieR, [], [], 0, 0, 0⟩

/-- A frame by prover `[5]` at height 5 with no aggregate proofs
(`input` is the 516-byte header only, so zero aggregate commitments). -/
def fA : ClockFrame := ⟨[1], 5, [9], List.replicate 516 0, []⟩

/-- A frame by prover `[6]` (absent from `trieR`) at height 6. -/
def fB : ClockFrame := ⟨[1], 6, [9], List.replicate 516 0, []⟩

/-- A frame with zero parsed aggregate commitments but one aggregate
proof: the per-proof loop indexes `aggregateCommitments[0]`, which does
not exist. -/
def fOob : ClockFrame := ⟨[1], 5, [9], List.replicate 516 0, [⟨[], [0]⟩]⟩

/-- A finalized frame of the range-server fixtures at height `h`. -/
def mkF (h : Nat) : ClockFrame := ⟨[1], h, [h], [], []⟩

/-- A store with finalized frames at heights 10..15 under filter `[1]`. -/
def storeR : Store := ⟨(List.range 6).map (fun i => ([1], 10 + i, mkF (10 + i))), []⟩

/-- A concrete range-server environment over `storeR`. -/
def envRng : RangeEnv where
  selfId := [0]
  engineFilter := [1]
  store := storeR
  getSelector := fun f => Except.ok [f.frameNumber]
  publishErr := fun _ => none
  valueErr := fun _ => none

/-- A candidate frame at height 11 under the selector of `mkF 10`. -/
def cand11 : ClockFrame := ⟨[1], 11, [10], [], []⟩

/-- Finalized only at height 10; 33 candidate rows at height 11 under
the base's selector. -/
def store3 : Store := ⟨[([1], 10, mkF 10)], List.replicate 33 ([1], [10], cand11)⟩

/-- Environment `envRng` over `store3`. -/
def env3 : RangeEnv := {envRng with store := store3}

/-- Finalized only at height 10; one candidate at height 11. -/
def store8 : Store := ⟨[([1], 10, mkF 10)], [([1], [10], cand11)]⟩

/-- Environment `envRng` over `store8` with the first publish attempt failing. -/
def env8 : RangeEnv :=
  {envRng with
    store := store8
    publishErr := fun n => if n = 0 then some "boom" else none}

/-- Environment `envRng` over the empty store. -/
def envE : RangeEnv := {envRng with store := Store.mk [] []}

/-- The snapshot trie after `fA` is accepted from `trieR`. -/
def tcW : Trie := [([5], ⟨2, 5, 4⟩)]

/-- The engine state after `fA` is accepted from `stR`: one candidate
row, updated received-frame bookkeeping and one live-trie entry. -/
def stW : RespState :=
  ⟨SyncStatus.notSyncing, trieR, [([5], ⟨5, 5, 1⟩)],
    [Candidate.mk [9] [1] [5] fA], 0, 5, 99⟩

/-- A proving-key environment whose key store holds the requested key. -/
def envPK : PKEnv where
  selfId := [0]
  getProvingKey := fun _ => Except.ok [1]
  getStagedProvingKey := fun _ => Except.error StoreErr.notFound

/-- A proving-key environment where both key lookups report not-found. -/
def envPKn : PKEnv where
  selfId := [0]
  getProvingKey := fun _ => Except.error StoreErr.notFound
  getStagedProvingKey := fun _ => Except.error StoreErr.notFound

/-! ## Theorems -/

/-- Claim C10 (code bug): the handler swallows every failure — the
unknown-key run below returns nil — but it does not return nil on every
path: when `GetProvingKey` finds the key, the unmarshal into the
never-assigned `provingKey` nil-dereferences, a runtime panic rather
than a nil return. -/
theorem C10_nil_deref_eval :
    handleProvingKeyRequest envPK [2] (some ⟨[7]⟩) =
        some (RunErr.panic
          "runtime error: invalid memory address or nil pointer dereference") ∧
      handleProvingKeyRequest envPKn [2] (some ⟨[7]⟩) = none := by
  exact ⟨by rfl, by rfl⟩

/-- Claim C6: a `ClockFramesResponse` from the local peer itself or from
a peer other than the current syncing target is dropped: the handler
returns nil and the engine state — candidates, both prover tries, the
sync status and the received-frame bookkeeping — is left unchanged. -/
theorem C6_guard_paths (env : RespEnv) (st : RespState) (peerId : Bytes)
    (response : ClockFramesResponse)
    (h : peerId = env.selfId ∨ peerId ≠ env.syncingTarget) :
    handleClockFramesResponse env st peerId response = (none, st) := by
  unfold handleClockFramesResponse
  rcases h with h | h
  · rw [if_pos h]
  · by_cases hs : peerId = env.selfId
    · rw [if_pos hs]
    · rw [if_neg hs, if_neg h]

/-- Witness for C6 at a concrete off-target message. -/
theorem C6_guard_paths_witness :
    ([2] = envR.selfId ∨ [2] ≠ envR.syncingTarget) ∧
      handleClockFramesResponse envR stR [2] ⟨[1], 0, 0, [fA]⟩ = (none, stR) :=
  ⟨Or.inr (by decide),
    C6_guard_paths envR stR [2] ⟨[1], 0, 0, [fA]⟩ (Or.inr (by decide))⟩

/-- Claim C2 (code bug): the verifier never checks
`len(aggregate_proofs) == n`.  On a frame whose `input` carries zero
aggregate commitments but whose `aggregate_proofs` has one entry, the
per-proof loop evaluates `aggregateCommitments[0]`, which is an
index-out-of-range runtime panic — not a rejection — and the engine
state is untouched. -/
theorem C2_oob_panic_eval :
    processFrame envR trieR stR fOob =
      (some (RunErr.panic "runtime error: index out of range"), trieR, stR) := by
  rfl

/-- Claim C7 (code bug): the default-branch padding loop
`for i := 0; i < 128-len(poly); i++` re-evaluates `len(poly)` as the
loop itself grows `poly`, so a length-0 polynomial is padded with only
64 zero scalars, not up to length 128; the per-proof pipeline then runs
the domain-128 FFT on a 64-element polynomial. -/
theorem C7_pad_short_eval :
    processInclusion envR ⟨"other.Type", [], [0]⟩ =
        Except.ok (List.replicate 64 0, 0) ∧
      (List.replicate 64 (0 : Nat)).length ≠ 128 := by
  exact ⟨by rfl, by decide⟩

/-- Claim C8 (code bug): when a publish fails while iterating candidate
frames, the handler returns without calling `iter.Close()`: the run
below ends with its single opened iterator still recorded open
(`iters = [false]`). -/
theorem C8_iterator_leak_eval :
    handleClockFramesRequest env8 [2] ⟨[1], 10, 12⟩ =
      some (some ("handle clock frame request" ++ ": " ++ "boom"),
        RSState.mk [] 1 [false]) := by
  rfl

/-- Counterexample to claim C3 as stated: a request whose from-frame
resolves to a finalized base, answered through candidate fan-out with
33 published frames — more than the claimed hard ceiling of 32. -/
theorem C3_fanout_counterexample :
    (handleClockFramesRequest env3 [2] ⟨[1], 10, 11⟩).map
        (fun r => r.2.published.length) = some 33 ∧ ¬(33 ≤ 32) := by
  exact ⟨by rfl, by decide⟩

/-- Counterexample to claim C4 as stated: with finalized frames at
heights 10..15 and the request `{from := 10, to := 14}`, the handler
publishes exactly the frames at heights 11..14 — the base frame at
height 10 is never published. -/
theorem C4_base_not_published :
    handleClockFramesRequest envRng [2] ⟨[1], 10, 14⟩ =
        some (none, RSState.mk
          [([1, 2], PubMsg.frameFin (mkF 11)), ([1, 2], PubMsg.frameFin (mkF 12)),
            ([1, 2], PubMsg.frameFin (mkF 13)), ([1, 2], PubMsg.frameFin (mkF 14))]
          4 []) ∧
      ([1, 2], PubMsg.frameFin (mkF 10)) ∉
          ([([1, 2], PubMsg.frameFin (mkF 11)), ([1, 2], PubMsg.frameFin (mkF 12)),
            ([1, 2], PubMsg.frameFin (mkF 13)), ([1, 2], PubMsg.frameFin (mkF 14))] :
            List (Bytes × PubMsg)) := by
  exact ⟨by rfl, by decide⟩

/-- Claim C9: the clamp computes `to - from` in wrapping uint64
arithmetic, so a backwards range `0 < to < from` with
`from - to < 2^64 - 32` triggers the clamp (`to := from + 31`) and the
whole request is served exactly as the forward request
`{from, (from + 31) % 2^64}`. -/
theorem C9_backwards_range (env : RangeEnv) (peerId : Bytes) (filt : Bytes)
    (fro t : Nat) (hf : fro < U64) (h0 : 0 < t) (hlt : t < fro)
    (hgap : fro - t < U64 - 32) :
    handleClockFramesRequest env peerId ⟨filt, fro, t⟩ =
      handleClockFramesRequest env peerId ⟨filt, fro, (fro + 31) % U64⟩ := by
  have hU : U64 = 18446744073709551616 := by norm_num [U64]
  have hA : clampTo fro t = (fro + 31) % U64 := by
    have hcond : t = 0 ∨ (t + U64 - fro % U64) % U64 > 32 := by
      right
      simp only [hU] at hf hgap ⊢
      omega
    unfold clampTo subU64
    rw [if_pos hcond]
  have hB : clampTo fro ((fro + 31) % U64) = (fro + 31) % U64 := by
    unfold clampTo
    split <;> rfl
  by_cases hp : peerId = env.selfId
  · simp only [handleClockFramesRequest, if_pos hp]
  · simp only [handleClockFramesRequest, if_neg hp]
    cases hbase : env.store.getFinalized filt fro <;> simp only [hA, hB]

/-- Witness for C9 at the concrete backwards request
`{from := 100, to := 5}`. -/
theorem C9_backwards_range_witness :
    (100 < U64 ∧ 0 < 5 ∧ 5 < 100 ∧ 100 - 5 < U64 - 32) ∧
      handleClockFramesRequest envRng [2] ⟨[1], 100, 5⟩ =
        handleClockFramesRequest envRng [2] ⟨[1], 100, (100 + 31) % U64⟩ :=
  ⟨⟨by decide, by decide, by decide, by decide⟩,
    C9_backwards_range envRng [2] [1] 100 5 (by decide) (by decide) (by decide)
      (by decide)⟩

/-- A failing loop iteration leaves the snapshot trie and the engine
state untouched: in the source every mutation of the iteration happens
after its last fallible call. -/
theorem processFrame_error_frozen (env : RespEnv) (tc : Trie) (st : RespState)
    (f : ClockFrame) (e : RunErr) (tc2 : Trie) (st2 : RespState)
    (h : processFrame env tc st f = (some e, tc2, st2)) : tc2 = tc ∧ st2 = st := by
  unfold processFrame at h
  cases hc : processFrameCore env tc f with
  | error e2 =>
    rw [hc] at h
    simp only [Prod.mk.injEq, Option.some.injEq] at h
    exact ⟨h.2.1.symm, h.2.2.symm⟩
  | ok out =>
    obtain ⟨p, ps, sel, d⟩ := out
    rw [hc] at h
    simp at h

/-- A successful loop iteration is exactly: core success, one `Add` on
the snapshot trie, and the frame effects on the engine state. -/
theorem processFrame_ok_shape (env : RespEnv) (tc : Trie) (st : RespState)
    (f : ClockFrame) (tc2 : Trie) (st2 : RespState)
    (h : processFrame env tc st f = (none, tc2, st2)) :
    ∃ prover parentSel selector distance,
      processFrameCore env tc f = Except.ok (prover, parentSel, selector, distance) ∧
      tc2 = tc.add prover f.frameNumber ∧
      st2 = applyFrameEffects env st f prover parentSel selector distance := by
  unfold processFrame at h
  cases hc : processFrameCore env tc f with
  | error e2 =>
    rw [hc] at h
    simp at h
  | ok out =>
    obtain ⟨p, ps, sel, d⟩ := out
    rw [hc] at h
    simp only [Prod.mk.injEq] at h
    exact ⟨p, ps, sel, d, rfl, h.2.1.symm, h.2.2.symm⟩

/-- The frame effects append exactly one candidate row
`(parentSelector, distance, selector, frame)`. -/
theorem applyFrameEffects_candidates (env : RespEnv) (st : RespState)
    (f : ClockFrame) (p ps sel d : Bytes) :
    (applyFrameEffects env st f p ps sel d).candidates =
      st.candidates ++ [Candidate.mk ps d sel f] := by
  simp only [applyFrameEffects]
  split <;> rfl

/-- The frame effects perform exactly one `Add` on the live
`frameSeenProverTrie`. -/
theorem applyFrameEffects_seenTrie (env : RespEnv) (st : RespState)
    (f : ClockFrame) (p ps sel d : Bytes) :
    (applyFrameEffects env st f p ps sel d).frameSeenProverTrie =
      st.frameSeenProverTrie.add p f.frameNumber := by
  simp only [applyFrameEffects]
  split <;> rfl

/-- Claim C5: frames of one response batch are processed strictly in
array order; when the batch fails, there is a position `k` such that the
final state is exactly the state after the successful prefix `[0, k)` —
one persisted candidate row per prefix frame and one live-trie `Add` per
prefix frame — the frame at position `k` failed leaving the state
unchanged (so later frames were never processed), and its error is the
one returned. -/
theorem C5_batch_order (env : RespEnv) (tc : Trie) (st : RespState)
    (frames : List ClockFrame) (e : RunErr) (tcF : Trie) (stF : RespState)
    (h : processBatch env tc st frames = (some e, tcF, stF)) :
    ∃ (k : Nat) (hk : k < frames.length),
      processBatch env tc st (frames.take k) = (none, tcF, stF) ∧
      processFrame env tcF stF (frames.get ⟨k, hk⟩) = (some e, tcF, stF) ∧
      ∃ rows : List Candidate,
        stF.candidates = st.candidates ++ rows ∧
        rows.map Candidate.frame = frames.take k ∧
        ∃ provers : List Bytes,
          provers.length = k ∧
          stF.frameSeenProverTrie =
            (provers.zip ((frames.take k).map ClockFrame.frameNumber)).foldl
              (fun acc pf => acc.add pf.1 pf.2) st.frameSeenProverTrie := by
  induction frames generalizing tc st with
  | nil => simp [processBatch] at h
  | cons f rest ih =>
    cases hpf : processFrame env tc st f with
    | mk r q =>
    obtain ⟨tc2, st2⟩ := q
    cases r with
    | some e0 =>
      obtain ⟨htc, hst⟩ := processFrame_error_frozen env tc st f e0 tc2 st2 hpf
      subst htc
      subst hst
      rw [processBatch, hpf] at h
      simp only [Prod.mk.injEq, Option.some.injEq] at h
      obtain ⟨he, htcF, hstF⟩ := h
      subst he
      subst htcF
      subst hstF
      refine ⟨0, by simp, by rfl, hpf, [], by simp, rfl, [], rfl, rfl⟩
    | none =>
      rw [processBatch, hpf] at h
      obtain ⟨p, ps, sel, d, hcore, htc2, hst2⟩ :=
        processFrame_ok_shape env tc st f tc2 st2 hpf
      obtain ⟨k, hk, hpre, hfail, rows, hcand, hmapr, provers, hlen, htrie⟩ :=
        ih tc2 st2 h
      refine ⟨k + 1, Nat.succ_lt_succ hk, ?_, hfail, Candidate.mk ps d sel f :: rows,
        ?_, ?_, p :: provers, ?_, ?_⟩
      · rw [List.take_succ_cons, processBatch, hpf]
        exact hpre
      · rw [hcand, hst2, applyFrameEffects_candidates]
        simp
      · rw [List.take_succ_cons]
        simp [hmapr]
      · simpa using hlen
      · rw [List.take_succ_cons]
        simp only [List.map_cons, List.zip_cons_cons, List.foldl_cons]
        rw [htrie, hst2, applyFrameEffects_seenTrie]

/-- Witness for C5: the two-frame batch `[fA, fB]` fails at position 1;
the final state is exactly the state after `fA`. -/
theorem C5_batch_order_witness :
    ∃ (k : Nat) (hk : k < ([fA, fB] : List ClockFrame).length),
      processBatch envR trieR stR (([fA, fB] : List ClockFrame).take k) =
        (none, tcW, stW) ∧
      processFrame envR tcW stW (([fA, fB] : List ClockFrame).get ⟨k, hk⟩) =
        (some (wrapErr "handle clock frame response" "prover not in trie"), tcW, stW) ∧
      ∃ rows : List Candidate,
        stW.candidates = stR.candidates ++ rows ∧
        rows.map Candidate.frame = ([fA, fB] : List ClockFrame).take k ∧
        ∃ provers : List Bytes,
          provers.length = k ∧
          stW.frameSeenProverTrie =
            (provers.zip ((([fA, fB] : List ClockFrame).take k).map
              ClockFrame.frameNumber)).foldl
              (fun acc pf => acc.add pf.1 pf.2) stR.frameSeenProverTrie :=
  C5_batch_order envR trieR stR [fA, fB]
    (wrapErr "handle clock frame response" "prover not in trie") tcW stW (by rfl)

/-- When the prefix of a batch succeeds, the whole batch continues from
the state the prefix reached. -/
theorem processBatch_append_ok (env : RespEnv) (tc : Trie) (st : RespState)
    (l1 l2 : List ClockFrame) (tc2 : Trie) (st2 : RespState)
    (h : processBatch env tc st l1 = (none, tc2, st2)) :
    processBatch env tc st (l1 ++ l2) = processBatch env tc2 st2 l2 := by
  induction l1 generalizing tc st with
  | nil =>
    simp only [processBatch, Prod.mk.injEq, true_and] at h
    rw [List.nil_append, h.1, h.2]
  | cons f rest ih =>
    rw [processBatch] at h
    cases hpf : processFrame env tc st f with
    | mk r q =>
    obtain ⟨tc3, st3⟩ := q
    rw [hpf] at h
    cases r with
    | some e0 => simp at h
    | none =>
      rw [List.cons_append, processBatch, hpf]
      exact ih tc3 st3 h

/-- Claim C1: (1) whenever the successful prefix of a batch has reached
snapshot trie `tck` and state `stk`, and the next frame's prover looks
up in `tck` with `count == 0` or `earliest >= frame.frame_number`, the
handler returns the "prover not in trie" error and the final state is
exactly `stk` — no later frame of the batch is processed; (2) a frame
can only pass the core pipeline if its prover resolved and looked up
with `count != 0` and `earliest < frame.frame_number` in the snapshot
trie it was checked against. -/
theorem C1_snapshot_gate :
    (∀ (env : RespEnv) (st : RespState) (peerId : Bytes)
        (resp : ClockFramesResponse) (k : Nat)
        (hk : k < resp.clockFrames.length) (tck : Trie) (stk : RespState)
        (prover : Bytes),
      peerId ≠ env.selfId →
      peerId = env.syncingTarget →
      processBatch env st.frameProverTrie
          {st with syncingStatus := SyncStatus.synchronizing}
          (resp.clockFrames.take k) = (none, tck, stk) →
      env.getAddress (resp.clockFrames.get ⟨k, hk⟩) = Except.ok prover →
      ((tck.get prover).2.2 = 0 ∨
        (tck.get prover).1 ≥ (resp.clockFrames.get ⟨k, hk⟩).frameNumber) →
      handleClockFramesResponse env st peerId resp =
        (some (wrapErr "handle clock frame response" "prover not in trie"),
          {stk with syncingStatus := SyncStatus.notSyncing})) ∧
    (∀ (env : RespEnv) (tc : Trie) (frame : ClockFrame)
        (out : Bytes × Bytes × Bytes × Bytes),
      processFrameCore env tc frame = Except.ok out →
      ∃ prover, env.getAddress frame = Except.ok prover ∧
        (tc.get prover).2.2 ≠ 0 ∧ (tc.get prover).1 < frame.frameNumber) := by
  constructor
  · intro env st peerId resp k hk tck stk prover hself htgt hpre haddr hgate
    have hframe : processFrame env tck stk (resp.clockFrames.get ⟨k, hk⟩) =
        (some (wrapErr "handle clock frame response" "prover not in trie"),
          tck, stk) := by
      unfold processFrame processFrameCore
      simp only [haddr]
      rw [if_pos hgate]
    have hdrop : resp.clockFrames.drop k =
        resp.clockFrames.get ⟨k, hk⟩ :: resp.clockFrames.drop (k + 1) :=
      List.drop_eq_getElem_cons hk
    have hbatch : processBatch env st.frameProverTrie
        {st with syncingStatus := SyncStatus.synchronizing} resp.clockFrames =
        (some (wrapErr "handle clock frame response" "prover not in trie"),
          tck, stk) := by
      conv_lhs => rw [(List.take_append_drop k resp.clockFrames).symm]
      rw [processBatch_append_ok env st.frameProverTrie
        {st with syncingStatus := SyncStatus.synchronizing}
        (resp.clockFrames.take k) (resp.clockFrames.drop k) tck stk hpre]
      rw [hdrop, processBatch, hframe]
    simp only [handleClockFramesResponse, if_neg hself, if_pos htgt]
    simp only [hbatch]
  · intro env tc frame out hcore
    unfold processFrameCore at hcore
    cases haddr : env.getAddress frame with
    | error e2 =>
      rw [haddr] at hcore
      simp at hcore
    | ok prover =>
      rw [haddr] at hcore
      dsimp only at hcore
      by_cases hgate : (tc.get prover).2.2 = 0 ∨ (tc.get prover).1 ≥ frame.frameNumber
      · rw [if_pos hgate] at hcore
        simp at hcore
      · push_neg at hgate
        exact ⟨prover, rfl, hgate.1, hgate.2⟩

/-- Witness for C1 at a one-frame batch whose prover `[6]` is absent
from the snapshot trie. -/
theorem C1_snapshot_gate_witness :
    handleClockFramesResponse envR stR [1] ⟨[1], 0, 0, [fB]⟩ =
      (some (wrapErr "handle clock frame response" "prover not in trie"),
        {({stR with syncingStatus := SyncStatus.synchronizing}) with
          syncingStatus := SyncStatus.notSyncing}) :=
  C1_snapshot_gate.1 envR stR [1] ⟨[1], 0, 0, [fB]⟩ 0 (by decide)
    stR.frameProverTrie {stR with syncingStatus := SyncStatus.synchronizing} [6]
    (by decide) (by rfl) (by rfl) (by rfl) (Or.inl (by rfl))

/-- Unfolding of `finSeq` on a positive count. -/
theorem finSeq_succ (topic : Bytes) (F : Nat → ClockFrame) (a k : Nat) :
    finSeq topic F a (k + 1) =
      (topic, PubMsg.frameFin (F a)) :: finSeq topic F (a + 1) k := by
  unfold finSeq
  rw [List.range_succ_eq_map, List.map_cons, List.map_map]
  refine congrArg₂ List.cons rfl ?_
  refine List.map_congr_left ?_
  intro i hi
  exact congrArg (fun n => (topic, PubMsg.frameFin (F n))) (by omega)

/-- One span step while finalization holds: a single-frame span whose
successor height is finalized publishes that successor and hands it to
the next span. -/
theorem processSpan_fin_step (env : RangeEnv) (topic : Bytes) (s fr : ClockFrame)
    (sel : Bytes) (st : RSState) (hsel : env.getSelector s = Except.ok sel)
    (hget : env.store.getFinalized s.filter ((s.frameNumber + 1) % U64) = some fr)
    (hpub : env.publishErr st.pubCount = none) :
    processSpan env topic [s] false [] st =
      (none, false, [fr],
        {st with
          pubCount := st.pubCount + 1
          published := st.published ++ [(topic, PubMsg.frameFin fr)]}) := by
  simp only [processSpan, hsel, hget]
  unfold doPublish
  simp only [hpub]
  simp [processSpan]

/-- The outer loop over a purely finalized chain: starting at level
`cur` from the single finalized frame at height `fro + cur - 1`, it
publishes exactly the finalized frames at heights
`fro + cur, ..., t` and stops. -/
theorem rsLoop_finalized (env : RangeEnv) (topic : Bytes) (filt : Bytes)
    (fro t : Nat) (F : Nat → ClockFrame) (g : ClockFrame → Bytes)
    (hpub : ∀ n, env.publishErr n = none)
    (hsel : ∀ f, env.getSelector f = Except.ok (g f))
    (hF : ∀ h, fro ≤ h → h ≤ t →
      env.store.getFinalized filt h = some (F h) ∧
        (F h).filter = filt ∧ (F h).frameNumber = h)
    (hft : fro ≤ t) (hU2 : t + 1 < U64) :
    ∀ (fuel cur : Nat) (st : RSState) (s : ClockFrame),
      s = F (fro + cur - 1) → 1 ≤ cur → cur ≤ t - fro + 1 →
      t - fro + 2 ≤ fuel + cur →
      rsLoop env topic fro t fuel [s] cur false st =
        some (none,
          RSState.mk
            (st.published ++ finSeq topic F (fro + cur) (t + 1 - (fro + cur)))
            (st.pubCount + (t + 1 - (fro + cur)))
            st.iters) := by
  have hU : U64 = 18446744073709551616 := by norm_num [U64]
  intro fuel
  induction fuel with
  | zero =>
    intro cur st s hs h1 h2 h3
    omega
  | succ fuel ih =>
    intro cur st s hs h1 h2 h3
    have hm : (fro + cur) % U64 = fro + cur := Nat.mod_eq_of_lt (by omega)
    by_cases hcur : fro + cur ≤ t
    · -- the loop condition holds and the level publishes `F (fro + cur)`
      rw [rsLoop, if_pos (by rw [hm]; exact ⟨by simp, hcur⟩)]
      obtain ⟨hgetp, hfiltp, hfnp⟩ := hF (fro + cur - 1) (by omega) (by omega)
      have hget2 : env.store.getFinalized s.filter ((s.frameNumber + 1) % U64) =
          some (F (fro + cur)) := by
        rw [hs, hfiltp, hfnp, show fro + cur - 1 + 1 = fro + cur from by omega, hm]
        exact (hF (fro + cur) (by omega) hcur).1
      rw [processSpan_fin_step env topic s (F (fro + cur)) (g s) st (hsel s) hget2
        (hpub st.pubCount)]
      dsimp only
      rw [ih (cur + 1)
        {st with
          pubCount := st.pubCount + 1
          published := st.published ++ [(topic, PubMsg.frameFin (F (fro + cur)))]}
        (F (fro + cur)) (by rw [show fro + (cur + 1) - 1 = fro + cur from by omega])
        (by omega) (by omega) (by omega)]
      dsimp only
      have hsz : t + 1 - (fro + cur) = t - (fro + cur) + 1 := by omega
      have hsz2 : t + 1 - (fro + (cur + 1)) = t - (fro + cur) := by omega
      have hidx : fro + (cur + 1) = fro + cur + 1 := by omega
      rw [hsz, finSeq_succ, hsz2, hidx]
      apply congrArg some
      apply congrArg (Prod.mk none)
      refine congrArg₂ (fun a b => RSState.mk a b st.iters) ?_ ?_
      · rw [List.append_assoc, List.singleton_append]
      · omega
    · -- the loop condition fails: `fro + cur = t + 1`
      have hstop : fro + cur = t + 1 := by omega
      rw [rsLoop, if_neg (by rw [hm]; omega)]
      rw [show t + 1 - (fro + cur) = 0 from by omega]
      simp [finSeq]

/-- Claim C4 (amended): for a request `{from, to}` with
`0 < to`, `from ≤ to ≤ from + 31` over a store finalized at every height
of `[from, to]`, the handler publishes exactly the finalized frames at
heights `from + 1, ..., to`, in ascending order, on the topic
`filter || peer_id` — the base frame at height `from` itself is not
published. -/
theorem C4_range_publishes (env : RangeEnv) (peerId : Bytes) (filt : Bytes)
    (fro t : Nat) (F : Nat → ClockFrame) (g : ClockFrame → Bytes)
    (hself : peerId ≠ env.selfId)
    (hpub : ∀ n, env.publishErr n = none)
    (hsel : ∀ f, env.getSelector f = Except.ok (g f))
    (hF : ∀ h, fro ≤ h → h ≤ t →
      env.store.getFinalized filt h = some (F h) ∧
        (F h).filter = filt ∧ (F h).frameNumber = h)
    (h0 : 0 < t) (hft : fro ≤ t) (hw : t ≤ fro + 31) (hU2 : t + 1 < U64) :
    handleClockFramesRequest env peerId ⟨filt, fro, t⟩ =
      some (none,
        RSState.mk (finSeq (env.engineFilter ++ peerId) F (fro + 1) (t - fro))
          (t - fro) []) := by
  have hU : U64 = 18446744073709551616 := by norm_num [U64]
  have hclamp : clampTo fro t = t := by
    unfold clampTo subU64
    rw [if_neg]
    simp only [not_or]
    constructor
    · omega
    · simp only [hU] at hU2 ⊢
      omega
  simp only [handleClockFramesRequest, if_neg hself, (hF fro (le_refl fro) hft).1,
    hclamp]
  rw [rsLoop_finalized env (env.engineFilter ++ peerId) filt fro t F g hpub hsel hF
    hft hU2 U64 1 rsInit (F fro) rfl (le_refl 1) (by omega)
    (by simp only [hU]; omega)]
  rw [show t + 1 - (fro + 1) = t - fro from by omega]
  simp [rsInit]

/-- Witness for C4 (amended) at the concrete store finalized on
heights 10..15 and the request `{from := 10, to := 14}`. -/
theorem C4_range_publishes_witness :
    handleClockFramesRequest envRng [2] ⟨[1], 10, 14⟩ =
      some (none,
        RSState.mk (finSeq (envRng.engineFilter ++ [2]) mkF (10 + 1) (14 - 10))
          (14 - 10) []) :=
  C4_range_publishes envRng [2] [1] 10 14 mkF (fun f => [f.frameNumber])
    (by decide) (fun n => rfl) (fun f => rfl)
    (by
      intro h h1 h2
      interval_cases h <;> exact ⟨by rfl, by rfl, by rfl⟩)
    (by decide) (by decide) (by decide) (by decide)

/-- Candidate iteration publishes only candidate frames: on every exit
path the number of published finalized frames is unchanged. -/
theorem iterLoop_finCount (env : RangeEnv) (topic : Bytes) :
    ∀ (cands acc : List ClockFrame) (st : RSState) (r : Option String)
      (adds : List ClockFrame) (st2 : RSState),
      iterLoop env topic cands acc st = (r, adds, st2) →
      finPubCount st2.published = finPubCount st.published := by
  intro cands
  induction cands with
  | nil =>
    intro acc st r adds st2 h
    simp only [iterLoop, Prod.mk.injEq] at h
    rw [← h.2.2]
  | cons f rest ih =>
    intro acc st r adds st2 h
    simp only [iterLoop] at h
    cases hv : env.valueErr f with
    | some e =>
      rw [hv] at h
      simp only [Prod.mk.injEq] at h
      rw [← h.2.2]
    | none =>
      rw [hv] at h
      dsimp only at h
      unfold doPublish at h
      cases hp : env.publishErr st.pubCount with
      | some e =>
        rw [hp] at h
        simp only [Prod.mk.injEq] at h
        rw [← h.2.2]
      | none =>
        rw [hp] at h
        dsimp only at h
        rw [ih _ _ _ _ _ h]
        simp [finPubCount, List.filter_append, isFinPub]

/-- Once finalization has run out, a span level publishes no finalized
frame and the flag stays set. -/
theorem processSpan_noMore_finCount (env : RangeEnv) (topic : Bytes) :
    ∀ (span ns : List ClockFrame) (st : RSState) (r : Option String) (nm : Bool)
      (ns2 : List ClockFrame) (st2 : RSState),
      processSpan env topic span true ns st = (r, nm, ns2, st2) →
      finPubCount st2.published = finPubCount st.published ∧ nm = true := by
  intro span
  induction span with
  | nil =>
    intro ns st r nm ns2 st2 h
    simp only [processSpan, Prod.mk.injEq] at h
    exact ⟨by rw [← h.2.2.2], h.2.1.symm⟩
  | cons s rest ih =>
    intro ns st r nm ns2 st2 h
    simp only [processSpan] at h
    cases hsel : env.getSelector s with
    | error e =>
      rw [hsel] at h
      simp only [Prod.mk.injEq] at h
      exact ⟨by rw [← h.2.2.2], h.2.1.symm⟩
    | ok selector =>
      rw [hsel] at h
      dsimp only at h
      cases hit : iterLoop env topic
          (env.store.rangeCandidates s.filter selector ((s.frameNumber + 1) % U64))
          [] {st with iters := st.iters ++ [false]} with
      | mk r2 q =>
      obtain ⟨adds, stA⟩ := q
      rw [hit] at h
      have hpre := iterLoop_finCount env topic _ _ _ _ _ _ hit
      cases r2 with
      | some e =>
        simp only [Prod.mk.injEq] at h
        exact ⟨by rw [← h.2.2.2]; exact hpre, h.2.1.symm⟩
      | none =>
        obtain ⟨h1, h2⟩ := ih _ _ _ _ _ _ h
        exact ⟨by rw [h1]; exact hpre, h2⟩

/-- A span level of at most one frame entered with finalization still
live publishes at most one finalized frame, and when finalization stays
live it hands over a next span that grew by at most one frame. -/
theorem processSpan_false_finCount (env : RangeEnv) (topic : Bytes)
    (span ns : List ClockFrame) (st : RSState) (r : Option String) (nm : Bool)
    (ns2 : List ClockFrame) (st2 : RSState)
    (hlen : span.length ≤ 1)
    (h : processSpan env topic span false ns st = (r, nm, ns2, st2)) :
    finPubCount st2.published ≤ finPubCount st.published + 1 ∧
      (nm = false → ns2.length ≤ ns.length + 1) := by
  match span, hlen with
  | [], _ =>
    simp only [processSpan, Prod.mk.injEq] at h
    exact ⟨by rw [← h.2.2.2]; omega, fun _ => by rw [← h.2.2.1]; omega⟩
  | [s], _ =>
    simp only [processSpan] at h
    cases hsel : env.getSelector s with
    | error e =>
      rw [hsel] at h
      simp only [Prod.mk.injEq] at h
      exact ⟨by rw [← h.2.2.2]; omega, fun _ => by rw [← h.2.2.1]; omega⟩
    | ok selector =>
      rw [hsel] at h
      dsimp only at h
      cases hget : env.store.getFinalized s.filter ((s.frameNumber + 1) % U64) with
      | none =>
        rw [hget] at h
        dsimp only at h
        cases hit : iterLoop env topic
            (env.store.rangeCandidates s.filter selector ((s.frameNumber + 1) % U64))
            [] {st with iters := st.iters ++ [false]} with
        | mk r2 q =>
        obtain ⟨adds, stA⟩ := q
        rw [hit] at h
        have hpre := iterLoop_finCount env topic _ _ _ _ _ _ hit
        cases r2 with
        | some e =>
          simp only [Prod.mk.injEq] at h
          refine ⟨by rw [← h.2.2.2, hpre]; dsimp only; omega, fun hf => ?_⟩
          rw [← h.2.1] at hf
          simp at hf
        | none =>
          simp only [processSpan, Prod.mk.injEq] at h
          refine ⟨by rw [← h.2.2.2, hpre]; dsimp only; omega, fun hf => ?_⟩
          rw [← h.2.1] at hf
          simp at hf
      | some f =>
        rw [hget] at h
        dsimp only at h
        unfold doPublish at h
        cases hp : env.publishErr st.pubCount with
        | some e =>
          rw [hp] at h
          dsimp only at h
          simp only [Prod.mk.injEq] at h
          exact ⟨by rw [← h.2.2.2]; dsimp only; omega, fun _ => by rw [← h.2.2.1]; omega⟩
        | none =>
          rw [hp] at h
          dsimp only at h
          simp only [processSpan, Prod.mk.injEq] at h
          constructor
          · rw [← h.2.2.2]
            dsimp only
            simp [finPubCount, List.filter_append, isFinPub]
          · intro _
            rw [← h.2.2.1]
            simp

/-- The traversal bound: from level `cur` on, at most
`t + 1 - (fro + cur)` further finalized frames are published (whatever
the candidate fan-out does). -/
theorem rsLoop_finBound (env : RangeEnv) (topic : Bytes) (fro t : Nat)
    (hU2 : t + 1 < U64) :
    ∀ (fuel : Nat) (span : List ClockFrame) (cur : Nat) (noMore : Bool)
      (st : RSState) (r : Option String) (st2 : RSState),
      1 ≤ cur → fro + cur < U64 →
      (noMore = false → span.length ≤ 1) →
      rsLoop env topic fro t fuel span cur noMore st = some (r, st2) →
      finPubCount st2.published ≤ finPubCount st.published + (t + 1 - (fro + cur)) := by
  intro fuel
  induction fuel with
  | zero =>
    intro span cur noMore st r st2 _ _ _ h
    simp [rsLoop] at h
  | succ fuel ih =>
    intro span cur noMore st r st2 h1 h2 hspan h
    rw [rsLoop] at h
    by_cases hcond : span ≠ [] ∧ (fro + cur) % U64 ≤ t
    · rw [if_pos hcond] at h
      have hmod : (fro + cur) % U64 = fro + cur := Nat.mod_eq_of_lt h2
      have hle : fro + cur ≤ t := by
        rw [hmod] at hcond
        exact hcond.2
      cases hps : processSpan env topic span noMore [] st with
      | mk r2 q =>
      obtain ⟨nm2, span2, st3⟩ := q
      rw [hps] at h
      have hstep : finPubCount st3.published ≤ finPubCount st.published + 1 ∧
          (nm2 = false → span2.length ≤ 1) := by
        cases noMore with
        | true =>
          obtain ⟨he, hnm⟩ :=
            processSpan_noMore_finCount env topic span [] st r2 nm2 span2 st3 hps
          refine ⟨by omega, fun hf => ?_⟩
          rw [hnm] at hf
          simp at hf
        | false =>
          have hh := processSpan_false_finCount env topic span [] st r2 nm2 span2 st3
            (hspan rfl) hps
          exact ⟨hh.1, fun hf => by simpa using hh.2 hf⟩
      cases r2 with
      | some e =>
        simp only [Option.some.injEq, Prod.mk.injEq] at h
        rw [← h.2]
        have := hstep.1
        omega
      | none =>
        have hrec := ih span2 (cur + 1) nm2 st3 r st2 (by omega) (by omega) hstep.2 h
        have := hstep.1
        omega
    · rw [if_neg hcond] at h
      simp only [Option.some.injEq, Prod.mk.injEq] at h
      rw [← h.2]
      omega

/-- Claim C3 (amended): the clamp makes the traversal span at most 32
heights beyond `from`, and at most one finalized frame is published per
height, so at most 32 finalized frames are published per request; the
candidate fan-out, however, is not bounded by 32. -/
theorem C3_fin_bound (env : RangeEnv) (peerId : Bytes)
    (request : ClockFramesRequest) (r : Option String) (st : RSState)
    (hfro : request.fromFrameNumber + 33 < U64)
    (hto : request.toFrameNumber < U64)
    (hrun : handleClockFramesRequest env peerId request = some (r, st)) :
    finPubCount st.published ≤ 32 := by
  have hU : U64 = 18446744073709551616 := by norm_num [U64]
  unfold handleClockFramesRequest at hrun
  by_cases hp : peerId = env.selfId
  · rw [if_pos hp] at hrun
    simp only [Option.some.injEq, Prod.mk.injEq] at hrun
    rw [← hrun.2]
    simp [rsInit, finPubCount]
  · rw [if_neg hp] at hrun
    cases hbase : env.store.getFinalized request.filter request.fromFrameNumber with
    | none =>
      rw [hbase] at hrun
      dsimp only at hrun
      unfold doPublish at hrun
      cases hpe : env.publishErr rsInit.pubCount with
      | some e =>
        rw [hpe] at hrun
        simp only [Option.some.injEq, Prod.mk.injEq] at hrun
        rw [← hrun.2]
        simp [rsInit, finPubCount]
      | none =>
        rw [hpe] at hrun
        simp only [Option.some.injEq, Prod.mk.injEq] at hrun
        rw [← hrun.2]
        simp [rsInit, finPubCount, isFinPub]
    | some base =>
      rw [hbase] at hrun
      dsimp only at hrun
      have hbound :
          clampTo request.fromFrameNumber request.toFrameNumber + 1 < U64 ∧
            clampTo request.fromFrameNumber request.toFrameNumber + 1 -
              (request.fromFrameNumber + 1) ≤ 32 := by
        unfold clampTo subU64
        split
        · constructor <;> (simp only [hU] at hfro ⊢; omega)
        · rename_i hc
          constructor <;> (simp only [hU] at hfro hto hc ⊢; omega)
      have hmain := rsLoop_finBound env (env.engineFilter ++ peerId)
        request.fromFrameNumber
        (clampTo request.fromFrameNumber request.toFrameNumber) hbound.1 U64 [base] 1
        false rsInit r st (le_refl 1) (by simp only [hU] at hfro ⊢; omega)
        (fun _ => by simp) hrun
      have h0 : finPubCount rsInit.published = 0 := by simp [rsInit, finPubCount]
      have := hbound.2
      omega

/-- Witness for C3 (amended) at a concrete request answered through the
empty-store branch. -/
theorem C3_fin_bound_witness :
    finPubCount (RSState.mk [([1, 2], PubMsg.emptyResponse [1])] 1 []).published ≤ 32 :=
  C3_fin_bound envE [2] ⟨[1], 10, 11⟩ none
    (RSState.mk [([1, 2], PubMsg.emptyResponse [1])] 1 [])
    (by decide) (by decide) (by rfl)

end Quil
